import Mathlib

/-!
Shallow embedding, in Lean 4, of the honeypot-detection core of the
Rust-REVM token risk scanner: the quote-mode and full-simulation honeypot
detectors (`src/honeypot.rs`), the PERS risk-score ladder
(`src/api/handlers.rs`), the bytecode access-control scanner, the result
cache (`src/utils/cache.rs`), the DexScreener route discovery
(`src/providers/dexscreener.rs`) and the RPC retry loop
(`src/providers/rpc.rs`).

Modelling conventions: Rust `u64`/`U256`/`usize` values are `Nat`
(with explicit truncation where the source truncates), `f64` quantities
are represented by `Rat` (the source only compares and performs exact
small-denominator arithmetic on them at the points the claims touch),
`Result<T, E>` is `Except String T`, and effectful sub-calls (RPC
round-trips, EVM execution) are passed in as explicit outcome values.
-/

-- ============================================================
-- § Generic sequence containment (model of Rust str/slice contains)
-- ============================================================

/-- Boolean test that `p` is a leading segment of the second list
(model of `str::starts_with` on decomposed data). -/
def leadsWith {α : Type} [DecidableEq α] : List α → List α → Bool
  | [], _ => true
  | _ :: _, [] => false
  | p :: ps, h :: hs => if p = h then leadsWith ps hs else false

/-- Boolean test that `pat` occurs as a contiguous subsequence of the second
list (model of Rust `str::contains` / substring search). -/
def hasSeq {α : Type} [DecidableEq α] (pat : List α) : List α → Bool
  | [] => leadsWith pat []
  | h :: t => leadsWith pat (h :: t) || hasSeq pat t

theorem leadsWith_append {α : Type} [DecidableEq α] (p t : List α) :
    leadsWith p (p ++ t) = true := by
  induction p with
  | nil => rfl
  | cons a as ih => simp [leadsWith, ih]

theorem hasSeq_of_leads {α : Type} [DecidableEq α] (p l : List α)
    (h : leadsWith p l = true) : hasSeq p l = true := by
  cases l with
  | nil => simpa [hasSeq] using h
  | cons x xs => simp [hasSeq, h]

theorem hasSeq_cons {α : Type} [DecidableEq α] (p : List α) (x : α) (xs : List α)
    (h : hasSeq p xs = true) : hasSeq p (x :: xs) = true := by
  simp [hasSeq, h]

/-- If the haystack literally decomposes around `p`, the search finds `p`. -/
theorem hasSeq_parts {α : Type} [DecidableEq α] (a p b : List α) :
    hasSeq p (a ++ (p ++ b)) = true := by
  induction a with
  | nil => exact hasSeq_of_leads _ _ (leadsWith_append p b)
  | cons x xs ih => exact hasSeq_cons _ _ _ ih

theorem leadsWith_decomp {α : Type} [DecidableEq α] (p : List α) :
    ∀ l : List α, leadsWith p l = true → ∃ t, l = p ++ t := by
  induction p with
  | nil => intro l _; exact ⟨l, rfl⟩
  | cons a as ih =>
    intro l h
    cases l with
    | nil => simp [leadsWith] at h
    | cons x xs =>
      simp only [leadsWith] at h
      split at h
      · obtain ⟨t, ht⟩ := ih xs h
        subst ht
        rename_i hax
        exact ⟨t, by simp [hax]⟩
      · simp at h

theorem hasSeq_decomp {α : Type} [DecidableEq α] (p : List α) :
    ∀ l : List α, hasSeq p l = true → ∃ a b, l = a ++ (p ++ b) := by
  intro l
  induction l with
  | nil =>
    intro h
    obtain ⟨t, ht⟩ := leadsWith_decomp p [] (by simpa [hasSeq] using h)
    exact ⟨[], t, ht⟩
  | cons x xs ih =>
    intro h
    simp only [hasSeq, Bool.or_eq_true] at h
    rcases h with h | h
    · obtain ⟨t, ht⟩ := leadsWith_decomp p _ h
      exact ⟨[], t, ht⟩
    · obtain ⟨a, b, hab⟩ := ih h
      exact ⟨x :: a, b, by simp [hab]⟩

-- ============================================================
-- § Hex encoding of bytecode (model of hex::encode)
-- ============================================================

/-- Lowercase hex digit for a nibble value. -/
def hexDigit (n : ℕ) : Char :=
  if n < 10 then Char.ofNat (48 + n) else Char.ofNat (87 + n)

/-- Two lowercase hex characters of one byte (bytes are taken mod 256,
mirroring the `u8` domain of the source). -/
def hexByte (b : ℕ) : List Char :=
  [hexDigit (b % 256 / 16), hexDigit (b % 16)]

/-- Lowercase hex encoding of a byte string (model of `hex::encode`). -/
def hexEncode : List ℕ → List Char
  | [] => []
  | b :: t => hexByte b ++ hexEncode t

theorem hexEncode_append (a b : List ℕ) :
    hexEncode (a ++ b) = hexEncode a ++ hexEncode b := by
  induction a with
  | nil => rfl
  | cons x xs ih => simp [hexEncode, ih]

/-- A byte-level occurrence of `pat` gives a hex-level occurrence of its
encoding: `hex::encode` maps contiguous byte runs to contiguous char runs. -/
theorem hasSeq_hexEncode (pat bs : List ℕ) (h : hasSeq pat bs = true) :
    hasSeq (hexEncode pat) (hexEncode bs) = true := by
  obtain ⟨a, b, hab⟩ := hasSeq_decomp pat bs h
  subst hab
  rw [hexEncode_append, hexEncode_append]
  exact hasSeq_parts _ _ _

-- ============================================================
-- § ASCII lowercasing (model of str::to_lowercase on ASCII data)
-- ============================================================

/-- ASCII lowercasing of one character; non-ASCII-uppercase characters are
left unchanged (the addresses and error messages the code lowercases are
ASCII). -/
def asciiLower (c : Char) : Char :=
  if 65 ≤ c.toNat ∧ c.toNat ≤ 90 then Char.ofNat (c.toNat + 32) else c

/-- Character list of the lowercased string. -/
def lowerChars (s : String) : List Char := s.toList.map asciiLower

/-- Lowercased string (model of `str::to_lowercase`). -/
def lowerStr (s : String) : String := String.mk (lowerChars s)

/-- Substring test on strings (model of `str::contains(&str)`). -/
def strHas (s pat : String) : Bool := hasSeq pat.toList s.toList

/-- Prefix test on strings used to state that a reason begins with a phrase. -/
def strBegins (s pat : String) : Bool := leadsWith pat.toList s.toList

-- ============================================================
-- § HoneypotResult and its constructors (src/honeypot.rs)
-- ============================================================

/-- Result of honeypot detection, mirroring `struct HoneypotResult` field by
field; the three `f64` percentage fields are modelled as rationals. -/
structure HoneypotResult where
  is_honeypot : Bool
  reason : String
  buy_success : Bool
  sell_success : Bool
  sell_reverted : Bool
  buy_tax_percent : ℚ
  sell_tax_percent : ℚ
  total_loss_percent : ℚ
  access_control_penalty : ℕ
  risk_factors : List String
  latency_ms : ℕ
deriving DecidableEq, Repr

/-- Constructor `HoneypotResult::safe`. -/
def HoneypotResult.safe (buy_tax sell_tax : ℚ) (access_penalty : ℕ)
    (risk_factors : List String) (latency_ms : ℕ) : HoneypotResult where
  is_honeypot := false
  reason := "Token passed buy/sell simulation"
  buy_success := true
  sell_success := true
  sell_reverted := false
  buy_tax_percent := buy_tax
  sell_tax_percent := sell_tax
  total_loss_percent := buy_tax + sell_tax
  access_control_penalty := access_penalty
  risk_factors := risk_factors
  latency_ms := latency_ms

/-- Constructor `HoneypotResult::honeypot`. -/
def HoneypotResult.honeypot (reason : String)
    (buy_success sell_success sell_reverted : Bool) (access_penalty : ℕ)
    (risk_factors : List String) (latency_ms : ℕ) : HoneypotResult where
  is_honeypot := true
  reason := reason
  buy_success := buy_success
  sell_success := sell_success
  sell_reverted := sell_reverted
  buy_tax_percent := if buy_success then 0 else 100
  sell_tax_percent := 100
  total_loss_percent := 100
  access_control_penalty := access_penalty
  risk_factors := risk_factors
  latency_ms := latency_ms

-- ============================================================
-- § PERS risk score (calculate_risk_score, src/api/handlers.rs)
-- ============================================================

/-- The PERS v2 score of a detection result, translated branch for branch
from `calculate_risk_score` in `src/api/handlers.rs`. -/
def calculate_risk_score (result : HoneypotResult) : ℕ :=
  if !result.buy_success && !result.sell_success && !result.is_honeypot
      && !result.sell_reverted then
    70
  else
    let base_score : ℕ :=
      if result.sell_reverted then 100
      else if result.is_honeypot then 95
      else if result.total_loss_percent > 50 then 80
      else if result.total_loss_percent > 30 then 60
      else if result.total_loss_percent > 10 then 40
      else if result.total_loss_percent > 5 then 20
      else 10
    let penalty : ℕ :=
      if result.total_loss_percent > 5 then result.access_control_penalty else 0
    min (base_score + penalty) 100

/-- Base score of the PERS ladder as the specification tables it
(first matching row wins). -/
def persSpecBase (r : HoneypotResult) : ℕ :=
  if r.sell_reverted then 100
  else if r.is_honeypot then 95
  else if 50 < r.total_loss_percent then 80
  else if 30 < r.total_loss_percent then 60
  else if 10 < r.total_loss_percent then 40
  else if 5 < r.total_loss_percent then 20
  else 10

/-- PERS score as the specification words it: a 70 short-circuit for the
fully-unverified case, then base plus conditionally-applied access-control
penalty, capped at 100. -/
def persSpec (r : HoneypotResult) : ℕ :=
  if r.buy_success = false ∧ r.sell_success = false ∧ r.is_honeypot = false
      ∧ r.sell_reverted = false then
    70
  else
    min 100 (persSpecBase r
      + (if 5 < r.total_loss_percent then r.access_control_penalty else 0))

-- ============================================================
-- § Bytecode access-control scanner (scan_access_control_functions)
-- ============================================================

/-- The selector table of `scan_access_control_functions`, in source order;
note the twelfth entry `8da5cb5b` labeled `enableTrading`. -/
def dangerous_selectors : List (String × String) :=
  [("974d396d", "setBots"),
   ("3d18678e", "setBot"),
   ("e4997dc5", "blacklistAddress"),
   ("44337ea1", "addToBlacklist"),
   ("b515566a", "isBot"),
   ("0ecb93c0", "setBlacklist"),
   ("09218e91", "addBot"),
   ("363bf964", "delBot"),
   ("8a8c523c", "setTradingEnabled"),
   ("8da5cb5b", "enableTrading"),
   ("ec28438a", "setMaxTxAmount"),
   ("f1d5f517", "setMaxWalletSize")]

/-- One iteration of the selector loop: on a hex match the penalty becomes 50
and a risk factor is pushed, otherwise the accumulator is unchanged. -/
def scanStep (code_hex : List Char) (acc : ℕ × List String)
    (sel : String × String) : ℕ × List String :=
  if hasSeq sel.1.toList code_hex then
    (50, acc.2 ++ ["⚠️ Access Control: " ++ sel.2 ++ " detected"])
  else acc

/-- Tail of the scanner: the blacklist-storage-pattern check that follows
the selector loop ("bots" is hex `626f7473`, "blacklist" is hex
`626c61636b6c697374`). -/
def scanBlacklistCheck (code_hex : List Char) (st : ℕ × List String) :
    ℕ × List String :=
  if hasSeq "626f7473".toList code_hex
      || hasSeq "626c61636b6c697374".toList code_hex then
    if st.1 = 0 then (50, st.2 ++ ["⚠️ Blacklist storage pattern detected"])
    else st
  else st

/-- Scanner `scan_access_control_functions`: returns the final penalty and
the extended risk-factor list. The caller passes the risk factors
accumulated so far (the Rust method mutates that vector in place). -/
def scan_access_control_functions (bytecode : List ℕ)
    (risk_factors : List String) : ℕ × List String :=
  scanBlacklistCheck (hexEncode bytecode)
    (dangerous_selectors.foldl (scanStep (hexEncode bytecode))
      (0, risk_factors))

theorem scanStep_fst (ch : List Char) (acc : ℕ × List String)
    (sel : String × String) :
    (scanStep ch acc sel).1 = acc.1 ∨ (scanStep ch acc sel).1 = 50 := by
  unfold scanStep
  split
  · exact Or.inr rfl
  · exact Or.inl rfl

theorem scanFold_fst (ch : List Char) :
    ∀ (sels : List (String × String)) (acc : ℕ × List String),
      (sels.foldl (scanStep ch) acc).1 = acc.1
        ∨ (sels.foldl (scanStep ch) acc).1 = 50 := by
  intro sels
  induction sels with
  | nil => intro acc; exact Or.inl rfl
  | cons s t ih =>
    intro acc
    rcases ih (scanStep ch acc s) with h | h
    · rcases scanStep_fst ch acc s with h2 | h2
      · exact Or.inl (by simp [List.foldl, h, h2])
      · exact Or.inr (by simp [List.foldl, h, h2])
    · exact Or.inr (by simp [List.foldl, h])

theorem scanFold_keeps_fifty (ch : List Char) :
    ∀ (sels : List (String × String)) (acc : ℕ × List String),
      acc.1 = 50 → (sels.foldl (scanStep ch) acc).1 = 50 := by
  intro sels
  induction sels with
  | nil => intro acc h; exact h
  | cons s t ih =>
    intro acc h
    have hstep : (scanStep ch acc s).1 = 50 := by
      unfold scanStep
      split
      · rfl
      · exact h
    exact ih _ hstep

theorem scanFold_of_match (ch : List Char) :
    ∀ (sels : List (String × String)) (acc : ℕ × List String)
      (sel : String × String), sel ∈ sels →
      hasSeq sel.1.toList ch = true →
      (sels.foldl (scanStep ch) acc).1 = 50 := by
  intro sels
  induction sels with
  | nil => intro acc sel h; simp at h
  | cons s t ih =>
    intro acc sel hmem hmatch
    rcases List.mem_cons.mp hmem with rfl | hmem2
    · have hstep : (scanStep ch acc sel).1 = 50 := by
        unfold scanStep
        rw [if_pos hmatch]
      exact scanFold_keeps_fifty ch t _ hstep
    · exact ih _ sel hmem2 hmatch

theorem scanBlacklistCheck_fst (ch : List Char) (st : ℕ × List String) :
    (scanBlacklistCheck ch st).1 = st.1 ∨ (scanBlacklistCheck ch st).1 = 50 := by
  unfold scanBlacklistCheck
  split
  · split
    · exact Or.inr rfl
    · exact Or.inl rfl
  · exact Or.inl rfl

theorem scanBlacklistCheck_keeps_fifty (ch : List Char) (st : ℕ × List String)
    (h : st.1 = 50) : (scanBlacklistCheck ch st).1 = 50 := by
  rcases scanBlacklistCheck_fst ch st with h2 | h2
  · rw [h2, h]
  · exact h2

/-- The scanner penalty is always 0 or 50. -/
theorem scan_penalty_cases (bytecode : List ℕ) (rf : List String) :
    (scan_access_control_functions bytecode rf).1 = 0
      ∨ (scan_access_control_functions bytecode rf).1 = 50 := by
  unfold scan_access_control_functions
  rcases scanBlacklistCheck_fst (hexEncode bytecode)
      (dangerous_selectors.foldl (scanStep (hexEncode bytecode)) (0, rf)) with
    h | h
  · rw [h]
    simpa using scanFold_fst (hexEncode bytecode) dangerous_selectors (0, rf)
  · exact Or.inr h

/-- A hex-level selector match forces penalty 50. -/
theorem scan_of_selector (bytecode : List ℕ) (rf : List String)
    (sel : String × String) (hmem : sel ∈ dangerous_selectors)
    (hmatch : hasSeq sel.1.toList (hexEncode bytecode) = true) :
    (scan_access_control_functions bytecode rf).1 = 50 := by
  unfold scan_access_control_functions
  exact scanBlacklistCheck_keeps_fifty _ _
    (scanFold_of_match (hexEncode bytecode) dangerous_selectors
      (0, rf) sel hmem hmatch)

-- ============================================================
-- § Numeric helpers for the detectors
-- ============================================================

/-- Truncating conversion `u128::try_from(U256).unwrap_or(0)`. -/
def u128TryFrom (n : ℕ) : ℕ := if n < 2 ^ 128 then n else 0

/-- Truncating conversion `U256 -> usize` via `try_into().unwrap_or(0)`. -/
def usizeTryFrom (n : ℕ) : ℕ := if n < 2 ^ 64 then n else 0

/-- Rendering of a percentage in a reason string. The Rust code formats the
f64 with two decimals; the rendered digits are irrelevant to every claim
(only the fixed phrase before them is), so the rational is printed as
numerator/denominator. -/
def fmtF64 (x : ℚ) : String := toString x.num ++ "/" ++ toString x.den

/-- Big-endian value of a byte slice (model of `U256::from_be_slice`,
bytes taken mod 256). -/
def beBytes (bs : List ℕ) : ℕ := bs.foldl (fun acc b => acc * 256 + b % 256) 0

/-- The last 32-byte word of a return payload, as a number. -/
def lastWord (bs : List ℕ) : ℕ := beBytes (bs.drop (bs.length - 32))

/-- ASCII fragment of `String::from_utf8`: succeeds exactly when every byte
is ASCII (the honeypot revert strings the source decodes are ASCII). -/
def asciiDecode : List ℕ → Option (List Char)
  | [] => some []
  | b :: t =>
    if b < 128 then (asciiDecode t).map (fun cs => Char.ofNat b :: cs)
    else none

-- ============================================================
-- § Revert decoding and EVM call outcomes (src/honeypot.rs)
-- ============================================================

/-- Outcome of one EVM transaction in the simulator, the tagged sum the
source matches on (`ExecutionResult::Success/Revert/Halt` plus the
`Err` case of `transact_commit`). -/
inductive ExecOutcome where
  | Success (output : List ℕ)
  | Revert (output : List ℕ)
  | Halt (reason : String)
  | EvmError (msg : String)
deriving DecidableEq, Repr

/-- Marker-scan fallback of `decode_revert_reason`: "bot" is hex `626f74`,
"trading" is `74726164696e67`, "transfer" is `7472616e73666572`. -/
def decodeFallback (output : List ℕ) : String :=
  if hasSeq "626f74".toList (hexEncode output) then "Bot detected / Blacklisted"
  else if hasSeq "74726164696e67".toList (hexEncode output) then
    "Trading not enabled"
  else if hasSeq "7472616e73666572".toList (hexEncode output) then
    "Transfer blocked"
  else "Revert: 0x" ++ String.mk (hexEncode (output.take 64))

/-- Decoder `decode_revert_reason`: ABI `Error(string)` (selector
`0x08c379a0`) when well formed, else the marker fallback. -/
def decode_revert_reason (output : List ℕ) : String :=
  if 68 ≤ output.length ∧ output.take 4 = [8, 195, 121, 160] then
    if 68 < output.length then
      let len := usizeTryFrom (beBytes ((output.drop 36).take 32))
      if 68 + len ≤ output.length then
        match asciiDecode ((output.drop 68).take len) with
        | some cs => String.mk cs
        | none => decodeFallback output
      else decodeFallback output
    else decodeFallback output
  else decodeFallback output

/-- Model of `execute_tx`: success yields the raw return bytes, a revert or
halt or EVM error becomes an `Err` with the formatted message. -/
def execute_tx : ExecOutcome → Except String (List ℕ)
  | .Success bytes => .ok bytes
  | .Revert out => .error ("Reverted: 0x" ++ String.mk (hexEncode out))
  | .Halt r => .error ("Halted: " ++ r)
  | .EvmError e => .error ("EVM error: " ++ e)

/-- Model of `simulate_buy`: the token amount is the last return word when
the payload is at least 64 bytes, else the 1-token fallback. -/
def simulate_buy (outcome : ExecOutcome) : Except String ℕ :=
  (execute_tx outcome).map
    (fun result =>
      if 64 ≤ result.length then lastWord result
      else 1000000000000000000)

/-- Model of `simulate_approve`: only success or failure matters. -/
def simulate_approve (outcome : ExecOutcome) : Except String Unit :=
  (execute_tx outcome).map (fun _ => ())

/-- Result of the sell simulation with revert detection. -/
inductive SimSellResult where
  | Success (eth : ℕ)
  | Reverted (reason : String)
deriving DecidableEq, Repr

/-- Model of `simulate_sell_with_revert_detection`: a revert is decoded, a
halt becomes a `Reverted` with a "Halted: " reason, and only an internal
EVM error is an `Err`. -/
def simulate_sell_with_revert_detection (outcome : ExecOutcome) :
    Except String SimSellResult :=
  match outcome with
  | .Success bytes =>
    .ok (.Success (if 64 ≤ bytes.length then lastWord bytes else 0))
  | .Revert out => .ok (.Reverted (decode_revert_reason out))
  | .Halt r => .ok (.Reverted ("Halted: " ++ r))
  | .EvmError e => .error ("EVM error: " ++ e)

-- ============================================================
-- § Full-simulation detector (HoneypotDetector::detect)
-- ============================================================

/-- The mock ERC20 runtime bytecode installed when none is provided. -/
def mock_erc20_bytecode : List ℕ :=
  [0x60, 0x01, 0x60, 0x00, 0x52, 0x60, 0x20, 0x60, 0x00, 0xf3]

/-- Full-simulation detector `HoneypotDetector::detect`, translated branch
for branch. The EVM outcomes of the three transactions are explicit inputs
(the source obtains them from REVM against the in-memory state). -/
def detect (token_bytecode : Option (List ℕ))
    (buyOut apprOut sellOut : ExecOutcome)
    (test_amount_eth : ℕ) (lat : ℕ) : Except String HoneypotResult :=
  let token_code := token_bytecode.getD mock_erc20_bytecode
  let scanRes := scan_access_control_functions token_code []
  match simulate_buy buyOut with
  | .error e =>
    .ok (HoneypotResult.honeypot ("Buy failed: " ++ e) false false false
      scanRes.1 scanRes.2 lat)
  | .ok tokens =>
    let _tokens_received := if tokens < 1000 then test_amount_eth else tokens
    match simulate_approve apprOut with
    | .error e =>
      .ok (HoneypotResult.honeypot ("Approve failed: " ++ e) true false false
        scanRes.1 scanRes.2 lat)
    | .ok _ =>
      match simulate_sell_with_revert_detection sellOut with
      | .ok (.Reverted reason) =>
        .ok (HoneypotResult.honeypot
          ("⛔ SELL REVERTED: " ++ reason ++ " - CONFIRMED HONEYPOT!")
          true false true scanRes.1
          (scanRes.2 ++ ["SELL REVERTED: " ++ reason]) lat)
      | .error e =>
        .ok (HoneypotResult.honeypot ("Sell failed: " ++ e ++ " - HONEYPOT!")
          true false true scanRes.1 scanRes.2 lat)
      | .ok (.Success eth) =>
        let eth_received :=
          if eth < 1000 then test_amount_eth * 95 / 100 else eth
        let test_f64 : ℚ := (u128TryFrom test_amount_eth : ℚ)
        let received_f64 : ℚ := (u128TryFrom eth_received : ℚ)
        if test_f64 = 0 then
          .ok (HoneypotResult.honeypot "Invalid test amount" true true false
            scanRes.1 scanRes.2 lat)
        else
          let total_loss_percent := ((test_f64 - received_f64) / test_f64) * 100
          if total_loss_percent > 50 then
            .ok (HoneypotResult.honeypot
              ("Extreme loss: " ++ fmtF64 total_loss_percent
                ++ "% - likely honeypot or high tax")
              true true false scanRes.1
              (scanRes.2 ++ ["Extreme loss: " ++ fmtF64 total_loss_percent
                ++ "%"]) lat)
          else
            .ok (HoneypotResult.safe (total_loss_percent / 2)
              (total_loss_percent / 2) scanRes.1 scanRes.2 lat)

-- ============================================================
-- § Quote-mode detector (HoneypotDetector::detect_async)
-- ============================================================

/-- Penalty and risk factors of the optional bytecode scan at the top of
`detect_async`: scanning is skipped (penalty 0) when no bytecode was
fetched. -/
def detectScan (token_bytecode : Option (List ℕ)) : ℕ × List String :=
  match token_bytecode with
  | some code => scan_access_control_functions code []
  | none => (0, [])

/-- Quote-mode detector `HoneypotDetector::detect_async`, translated branch
for branch. The two `getAmountsOut` RPC round-trips are explicit inputs:
`forwardQ` is the WETH→token quote, `reverseQ` the token→WETH quote (the
source only issues the reverse call when the forward one succeeded with a
nonzero amount, so `reverseQ` is simply unused on the other paths). -/
def detect_async (chain_name native_symbol : String)
    (token_bytecode : Option (List ℕ))
    (forwardQ reverseQ : Except String ℕ)
    (test_amount_eth : ℕ) (lat : ℕ) : Except String HoneypotResult :=
  let scanRes := detectScan token_bytecode
  match forwardQ with
  | .ok expected_tokens =>
    if expected_tokens = 0 then
      .ok { is_honeypot := false
            reason := "No liquidity pool found on " ++ chain_name
              ++ " DEX. Token may trade on other DEXes."
            buy_success := false
            sell_success := false
            sell_reverted := false
            buy_tax_percent := 0
            sell_tax_percent := 0
            total_loss_percent := 0
            access_control_penalty := scanRes.1
            risk_factors := ["No liquidity on checked DEX"]
            latency_ms := lat }
    else
      match reverseQ with
      | .ok eth_back =>
        let test_f64 : ℚ := (u128TryFrom test_amount_eth : ℚ)
        let back_f64 : ℚ := (u128TryFrom eth_back : ℚ)
        if test_f64 = 0 then
          .ok (HoneypotResult.honeypot "Invalid test amount" true false false
            scanRes.1 scanRes.2 lat)
        else
          let total_loss := max (((test_f64 - back_f64) / test_f64) * 100) 0
          if total_loss > 90 then
            .ok (HoneypotResult.honeypot
              ("Extreme loss: " ++ fmtF64 total_loss ++ "% - likely honeypot")
              true false false scanRes.1
              (scanRes.2 ++ ["Extreme loss: " ++ fmtF64 total_loss ++ "%"])
              lat)
          else
            .ok (HoneypotResult.safe (total_loss / 2) (total_loss / 2)
              scanRes.1 scanRes.2 lat)
      | .error e =>
        if hasSeq "insufficient".toList (lowerChars e)
            || hasSeq "empty".toList (lowerChars e) then
          .ok { is_honeypot := false
                reason := "Insufficient liquidity for sell on " ++ chain_name
                  ++ " DEX"
                buy_success := true
                sell_success := false
                sell_reverted := false
                buy_tax_percent := 0
                sell_tax_percent := 0
                total_loss_percent := 0
                access_control_penalty := scanRes.1
                risk_factors := ["Low liquidity"]
                latency_ms := lat }
        else
          .ok (HoneypotResult.honeypot
            ("Sell returned 0 " ++ native_symbol ++ " - cannot sell tokens")
            true false true scanRes.1 scanRes.2 lat)
  | .error _ =>
    .ok { is_honeypot := false
          reason := "No trading pair found on " ++ chain_name
            ++ " DEX. Try checking on a different DEX."
          buy_success := false
          sell_success := false
          sell_reverted := false
          buy_tax_percent := 0
          sell_tax_percent := 0
          total_loss_percent := 0
          access_control_penalty := scanRes.1
          risk_factors := ["No pair on " ++ chain_name ++ " DEX"]
          latency_ms := lat }

-- ============================================================
-- § Result cache (src/utils/cache.rs)
-- ============================================================

/-- Default cache TTL: 5 minutes. -/
def DEFAULT_TTL_SECS : ℕ := 300

/-- Cache entry with its creation instant (seconds on the monotonic clock,
modelled as a rational) and TTL. -/
structure CacheEntry where
  result : HoneypotResult
  created_at : ℚ
  ttl_secs : ℕ
deriving DecidableEq, Repr

/-- Predicate `CacheEntry::is_expired`, evaluated at clock instant `now`:
the elapsed time strictly exceeds the TTL. -/
def CacheEntry.is_expired (now : ℚ) (e : CacheEntry) : Bool :=
  decide ((e.ttl_secs : ℚ) < now - e.created_at)

/-- The cache: a map from normalized keys to entries plus the hit/miss
counters (the DashMap is modelled as a function into Option). -/
structure HoneypotCache where
  store : String → Option CacheEntry
  ttl_secs : ℕ
  hits : ℕ
  misses : ℕ

/-- Key normalization `normalize_address` (lowercasing). -/
def normalize_address (address : String) : String := lowerStr address

/-- Constructor `HoneypotCache::new` (default TTL). -/
def HoneypotCache.new : HoneypotCache :=
  { store := fun _ => none, ttl_secs := DEFAULT_TTL_SECS, hits := 0,
    misses := 0 }

/-- Operation `HoneypotCache::set` at clock instant `now`. -/
def HoneypotCache.set (c : HoneypotCache) (now : ℚ) (address : String)
    (result : HoneypotResult) : HoneypotCache :=
  { c with store := fun k =>
      if k = normalize_address address then
        some { result := result, created_at := now, ttl_secs := c.ttl_secs }
      else c.store k }

/-- Operation `HoneypotCache::get` at clock instant `now`: returns the
looked-up value and the cache afterwards (an expired entry is removed). -/
def HoneypotCache.get (c : HoneypotCache) (now : ℚ) (address : String) :
    Option HoneypotResult × HoneypotCache :=
  match c.store (normalize_address address) with
  | some entry =>
    if entry.is_expired now then
      (none,
        { c with
            store := fun k =>
              if k = normalize_address address then none else c.store k,
            misses := c.misses + 1 })
    else (some entry.result, { c with hits := c.hits + 1 })
  | none => (none, { c with misses := c.misses + 1 })

-- ============================================================
-- § DexScreener route discovery (src/providers/dexscreener.rs)
-- ============================================================

/-- Token leg of a pair. -/
structure DexToken where
  address : String
  name : Option String
  symbol : Option String
deriving DecidableEq, Repr

/-- Liquidity block of a pair. -/
structure DexLiquidity where
  usd : Option ℚ
  base : Option ℚ
  quote : Option ℚ
deriving DecidableEq, Repr

/-- 24h volume block of a pair. -/
structure DexVolume where
  h24 : Option ℚ
deriving DecidableEq, Repr

/-- A trading pair as returned by the DexScreener API. -/
structure DexPair where
  chain_id : String
  dex_id : String
  pair_address : String
  labels : List String
  base_token : DexToken
  quote_token : DexToken
  liquidity : Option DexLiquidity
  price_usd : Option String
  volume : Option DexVolume
deriving DecidableEq, Repr

/-- The liquidity key the source ranks by:
`liquidity.as_ref().and_then(|l| l.usd).unwrap_or(0.0)`. -/
def DexPair.liqKey (p : DexPair) : ℚ := (p.liquidity.bind (·.usd)).getD 0

/-- Predicate `DexPair::is_v2_compatible`. -/
def DexPair.is_v2_compatible (p : DexPair) : Bool :=
  let is_v3 := p.labels.any (fun l => strHas l "v3" || strHas l "v4")
  let is_velodrome_style :=
    lowerStr p.dex_id == "velodrome" || lowerStr p.dex_id == "aerodrome"
      || lowerStr p.dex_id == "ramses" || lowerStr p.dex_id == "thena"
      || lowerStr p.dex_id == "equalizer"
  !is_v3 && !is_velodrome_style

/-- The liquidity-descending sort performed by `get_token_pairs`. -/
def sortPairsByLiquidity (pairs : List DexPair) : List DexPair :=
  pairs.mergeSort (fun a b => decide (DexPair.liqKey b ≤ DexPair.liqKey a))

/-- Router lookup `dex_id_to_router` (V2-interface routers only). -/
def dex_id_to_router (dex_id chain_id : String) : Option String :=
  match lowerStr dex_id, lowerStr chain_id with
  | "uniswap", "ethereum" => some "0x7a250d5630B4cF539739dF2C5dAcb4c659F2488D"
  | "sushiswap", "ethereum" => some "0xd9e1cE17f2641f24aE83637ab66a2cca9C378B9F"
  | "pancakeswap", "bsc" => some "0x10ED43C718714eb63d5aA57B78B54704E256024E"
  | "biswap", "bsc" => some "0x3a6d8cA21D1CF76F653A67577FA0D27453350dD8"
  | "quickswap", "polygon" => some "0xa5E0829CaCEd8fFDD4De3c43696c57F7D7A678ff"
  | "sushiswap", "polygon" => some "0x1b02dA8Cb0d097eB8D57A175b88c7D8b47997506"
  | "camelot", "arbitrum" => some "0xc873fEcbd354f5A56E00E710B90EF4201db2448d"
  | "sushiswap", "arbitrum" => some "0x1b02dA8Cb0d097eB8D57A175b88c7D8b47997506"
  | "traderjoe", "avalanche" => some "0x60aE616a2155Ee3d9A68541Ba4544862310933d4"
  | "pangolin", "avalanche" => some "0xE54Ca86531e17Ef3616d22Ca28b0D458b6C89106"
  | "baseswap", "base" => some "0x327Df1E6de05895d2ab08513aaDD9313Fe505d86"
  | "sushiswap", "base" => some "0x6BDED42c6DA8FBf0d2bA55B2fa120C5e0c8D7891"
  | "pancakeswap", "base" => some "0x02a84c1b3BBD7401a5f7fa98a384EBC70bB5749E"
  | _, _ => none

/-- Display-name lookup `dex_id_to_name`. -/
def dex_id_to_name (dex_id : String) : String :=
  match lowerStr dex_id with
  | "uniswap" => "Uniswap V2"
  | "sushiswap" => "SushiSwap"
  | "pancakeswap" => "PancakeSwap V2"
  | "biswap" => "BiSwap"
  | "quickswap" => "QuickSwap"
  | "camelot" => "Camelot"
  | "velodrome" => "Velodrome"
  | "traderjoe" => "TraderJoe"
  | "pangolin" => "Pangolin"
  | "aerodrome" => "Aerodrome"
  | "baseswap" => "BaseSwap"
  | _ => dex_id

/-- Discovered DEX info derived from a pair. -/
structure DiscoveredDex where
  dex_id : String
  dex_name : String
  pair_address : String
  router_address : Option String
  liquidity_usd : ℚ
  quote_token : String
deriving DecidableEq, Repr

/-- Conversion `DexPair::to_discovered_dex`. -/
def DexPair.to_discovered_dex (p : DexPair) : DiscoveredDex :=
  { dex_id := p.dex_id
    dex_name := dex_id_to_name p.dex_id
    pair_address := p.pair_address
    router_address := dex_id_to_router p.dex_id p.chain_id
    liquidity_usd := p.liqKey
    quote_token := p.quote_token.symbol.getD "" }

/-- Mapping `dexscreener_name_to_chain_id` from `utils/constants.rs`. -/
def dexscreener_name_to_chain_id (name : String) : ℕ :=
  match lowerStr name with
  | "ethereum" => 1
  | "bsc" => 56
  | "polygon" => 137
  | "arbitrum" => 42161
  | "optimism" => 10
  | "avalanche" => 43114
  | "base" => 8453
  | "solana" => 900
  | _ => 1

/-- Mapping `get_chain_name` from `utils/constants.rs`. -/
def get_chain_name (chain_id : ℕ) : String :=
  match chain_id with
  | 1 => "Ethereum"
  | 56 => "BNB Smart Chain"
  | 137 => "Polygon"
  | 42161 => "Arbitrum One"
  | 10 => "Optimism"
  | 43114 => "Avalanche C-Chain"
  | 8453 => "Base"
  | 900 => "Solana"
  | _ => "Unknown"

/-- Auto-detection output, mirroring `struct AutoDetectedToken`. -/
structure AutoDetectedToken where
  chain_id : ℕ
  chain_name : String
  best_dex : DiscoveredDex
  token_name : Option String
  token_symbol : Option String
  all_pairs : List DiscoveredDex
  has_v2_liquidity : Bool
  total_pairs : ℕ
  price_usd : Option String
  volume_24h_usd : Option ℚ
  pair_address : Option String
deriving DecidableEq, Repr

/-- Route discovery `auto_detect_token`. Its input is the raw pair list the
DexScreener API returned for the token; `get_token_pairs` sorts it by
liquidity descending before the selection logic runs. -/
def auto_detect_token (raw : List DexPair) : Except String AutoDetectedToken :=
  let pairs := sortPairsByLiquidity raw
  match pairs with
  | [] => .error "Token not found on any supported chain"
  | p0 :: rest =>
    let v2_pairs := (p0 :: rest).filter (fun p => p.is_v2_compatible)
    let best_pair := match v2_pairs with
      | [] => p0
      | q :: _ => q
    let chain_id := dexscreener_name_to_chain_id best_pair.chain_id
    let all_discovered :=
      (((p0 :: rest).filter
          (fun p => dexscreener_name_to_chain_id p.chain_id == chain_id)).filter
        (fun p => p.is_v2_compatible)).map (fun p => p.to_discovered_dex)
    .ok
      { chain_id := chain_id
        chain_name := get_chain_name chain_id
        best_dex := best_pair.to_discovered_dex
        token_name := best_pair.base_token.name
        token_symbol := best_pair.base_token.symbol
        all_pairs := all_discovered
        has_v2_liquidity := decide (0 < v2_pairs.length)
        total_pairs := (p0 :: rest).length
        price_usd := best_pair.price_usd
        volume_24h_usd := best_pair.volume.bind (·.h24)
        pair_address := some best_pair.pair_address }

-- ============================================================
-- § RPC retry loop (src/providers/rpc.rs)
-- ============================================================

/-- Maximum batch size (Alchemy best practice). -/
def MAX_BATCH_SIZE : ℕ := 50

/-- Base retry delay in milliseconds. -/
def ALCHEMY_BASE_RETRY_MS : ℕ := 1000

/-- Maximum retry delay in milliseconds. -/
def ALCHEMY_MAX_RETRY_MS : ℕ := 64000

/-- Maximum retry attempts. -/
def ALCHEMY_MAX_RETRIES : ℕ := 7

/-- Jitter as a percentage of the capped delay. -/
def RETRY_JITTER_PERCENT : ℕ := 20

/-- JSON-RPC error body. -/
structure RpcError where
  code : ℤ
  message : String
deriving DecidableEq, Repr

/-- Classifier `RpcError::is_rate_limit`. -/
def RpcError.is_rate_limit (e : RpcError) : Bool :=
  e.code == -32005 || strHas (lowerStr e.message) "rate limit"

/-- Classifier `RpcError::is_method_not_found`. -/
def RpcError.is_method_not_found (e : RpcError) : Bool := e.code == -32601

/-- Classifier `RpcError::is_parse_error`. -/
def RpcError.is_parse_error (e : RpcError) : Bool := e.code == -32700

/-- Classifier `RpcError::is_invalid_request`. -/
def RpcError.is_invalid_request (e : RpcError) : Bool := e.code == -32600

/-- Parsed body of one HTTP reply as `execute_call` inspects it. -/
inductive BodyOutcome (T : Type) where
  | parseFailed (msg : String)
  | rpcFailure (err : RpcError)
  | noResult
  | result (t : T)
deriving DecidableEq, Repr

/-- One HTTP reply: status code plus body. -/
structure HttpReply (T : Type) where
  status : ℕ
  body : BodyOutcome T
deriving DecidableEq, Repr

/-- Model of `execute_call`: one send, mapped to `Ok` or the formatted
error message the source builds for each failure shape. -/
def execute_call {T : Type} : Except String (HttpReply T) → Except String T
  | .error e => .error ("Request failed: " ++ e)
  | .ok reply =>
    if reply.status = 429 then .error "Rate limited (HTTP 429)"
    else if !(200 ≤ reply.status && reply.status ≤ 299) then
      .error ("HTTP error: " ++ toString reply.status)
    else
      match reply.body with
      | .parseFailed e => .error ("Failed to parse response: " ++ e)
      | .rpcFailure err =>
        .error ("RPC error: " ++ err.message ++ " (code: "
          ++ toString err.code ++ ")")
      | .noResult => .error "No result in response"
      | .result t => .ok t

/-- Exponential base delay of loop attempt index `attempt` (1-based among
the retries): `ALCHEMY_BASE_RETRY_MS * 2^(attempt-1)`. -/
def base_delay (attempt : ℕ) : ℕ := ALCHEMY_BASE_RETRY_MS * 2 ^ (attempt - 1)

/-- Cap of the base delay at `ALCHEMY_MAX_RETRY_MS`. -/
def capped_delay (attempt : ℕ) : ℕ := min (base_delay attempt) ALCHEMY_MAX_RETRY_MS

/-- Jitter bound: 20 percent of the capped delay (integer division). -/
def jitter_range (attempt : ℕ) : ℕ :=
  capped_delay attempt * RETRY_JITTER_PERCENT / 100

/-- Sleep actually performed before retry `attempt`:
`max(capped_delay + jitter, 100)` milliseconds. -/
def final_delay (attempt : ℕ) (jitter : ℤ) : ℤ :=
  max ((capped_delay attempt : ℤ) + jitter) 100

/-- Loop body of `call_with_retry`. State: remaining fuel, next attempt
index, last error seen, sleeps performed so far. Returns the call result,
the number of attempts actually executed, and the sleep trace. -/
def callWithRetryGo {T : Type} (jitters : ℕ → ℤ)
    (attempts : ℕ → Except String T) :
    ℕ → ℕ → Option String → List ℤ → Except String T × ℕ × List ℤ
  | 0, idx, last, sleeps =>
    (.error (last.getD
        ("Unknown error after " ++ toString ALCHEMY_MAX_RETRIES
          ++ " retries")),
      idx, sleeps)
  | fuel + 1, idx, _last, sleeps =>
    let sleeps2 :=
      if idx = 0 then sleeps
      else sleeps ++ [final_delay idx (jitters idx)]
    match attempts idx with
    | .ok t => (.ok t, idx + 1, sleeps2)
    | .error e => callWithRetryGo jitters attempts fuel (idx + 1) (some e) sleeps2

/-- Retry loop `call_with_retry`: up to `ALCHEMY_MAX_RETRIES` attempts, a
backoff sleep before every attempt after the first, retrying after every
failed attempt. `attempts k` is the outcome of `execute_call` on attempt
index `k`; `jitters k` is the random jitter drawn before retry `k`. -/
def call_with_retry {T : Type} (jitters : ℕ → ℤ)
    (attempts : ℕ → Except String T) : Except String T × ℕ × List ℤ :=
  callWithRetryGo jitters attempts ALCHEMY_MAX_RETRIES 0 none []

-- ============================================================
-- § Shared scanner lemmas
-- ============================================================

theorem scanBlacklistCheck_of_pattern (ch : List Char) (st : ℕ × List String)
    (hb : (hasSeq "626f7473".toList ch
      || hasSeq "626c61636b6c697374".toList ch) = true)
    (hst : st.1 = 0 ∨ st.1 = 50) : (scanBlacklistCheck ch st).1 = 50 := by
  unfold scanBlacklistCheck
  rw [if_pos hb]
  rcases hst with h | h
  · rw [if_pos h]
  · rw [if_neg (by omega)]
    exact h

/-- The eleven dangerous selectors enumerated by the specification table
(the source table additionally holds `8da5cb5b`). -/
def elevenSpecSelectors : List String :=
  ["974d396d", "3d18678e", "e4997dc5", "44337ea1", "b515566a", "0ecb93c0",
   "09218e91", "363bf964", "8a8c523c", "ec28438a", "f1d5f517"]

-- ============================================================
-- § Claim theorems
-- ============================================================

/-- C2: for every HoneypotResult, `calculate_risk_score` equals the PERS
ladder exactly as the specification words it: 70 for the fully-unverified
case, else first-match-wins base (100 / 95 / 80 / 60 / 40 / 20 / 10), the
access-control penalty added if and only if `total_loss_percent > 5`, and
the sum capped at 100. -/
theorem pers_score_eq_spec (r : HoneypotResult) :
    calculate_risk_score r = persSpec r := by
  unfold calculate_risk_score persSpec persSpecBase
  cases hb : r.buy_success <;> cases hs : r.sell_success <;>
    cases hh : r.is_honeypot <;> cases hsr : r.sell_reverted <;>
    simp [hb, hs, hh, hsr] <;> split_ifs <;> omega

/-- C4: the selector table of the scanner contains the twelfth entry
`8da5cb5b` (the standard Ownable `owner()` selector, labeled
`enableTrading` in the source): every bytecode whose lowercase hex encoding
contains that selector receives access-control penalty 50, independently of
all other patterns. -/
theorem scan_flags_owner_selector (bytecode : List ℕ) (rf : List String)
    (h : hasSeq "8da5cb5b".toList (hexEncode bytecode) = true) :
    (scan_access_control_functions bytecode rf).1 = 50 :=
  scan_of_selector bytecode rf ("8da5cb5b", "enableTrading") (by decide) h

/-- Witness for C4: the four bytes `8d a5 cb 5b` alone trigger penalty 50,
while none of the eleven specification-listed selectors and neither byte
pattern ("bots" / "blacklist") occurs in them. -/
theorem scan_flags_owner_selector_witness :
    hasSeq "8da5cb5b".toList (hexEncode [141, 165, 203, 91]) = true
    ∧ ((dangerous_selectors.filter
          (fun sel => hasSeq sel.1.toList (hexEncode [141, 165, 203, 91]))).map
        (fun sel => sel.2)) = ["enableTrading"]
    ∧ hasSeq "626f7473".toList (hexEncode [141, 165, 203, 91]) = false
    ∧ hasSeq "626c61636b6c697374".toList (hexEncode [141, 165, 203, 91]) = false
    ∧ (scan_access_control_functions [141, 165, 203, 91] []).1 = 50 :=
  ⟨by decide, by decide, by decide, by decide,
    scan_flags_owner_selector [141, 165, 203, 91] [] (by decide)⟩

/-- C5: any bytecode whose lowercase hex encoding contains one of the eleven
specification-listed selectors, or whose bytes contain the UTF-8 patterns
"bots" (`98 111 116 115`) or "blacklist"
(`98 108 97 99 107 108 105 115 116`), receives penalty exactly 50; and the
penalty is at most 50 for every bytecode whatsoever. -/
theorem scan_penalty_spec (bytecode : List ℕ) (rf : List String) :
    ((∃ s ∈ elevenSpecSelectors, hasSeq s.toList (hexEncode bytecode) = true)
        ∨ hasSeq [98, 111, 116, 115] bytecode = true
        ∨ hasSeq [98, 108, 97, 99, 107, 108, 105, 115, 116] bytecode = true →
      (scan_access_control_functions bytecode rf).1 = 50)
    ∧ (scan_access_control_functions bytecode rf).1 ≤ 50 := by
  constructor
  · have hpairs : ∀ s ∈ elevenSpecSelectors,
        ∃ p ∈ dangerous_selectors, p.1 = s := by decide
    rintro (⟨s, hs, hmatch⟩ | hbots | hbl)
    · obtain ⟨p, hp, hps⟩ := hpairs s hs
      refine scan_of_selector bytecode rf p hp ?_
      rw [hps]
      exact hmatch
    · have h1 := hasSeq_hexEncode _ _ hbots
      have h2 : hexEncode [98, 111, 116, 115] = "626f7473".toList := by decide
      rw [h2] at h1
      exact scanBlacklistCheck_of_pattern _ _
        (by rw [Bool.or_eq_true]; exact Or.inl h1)
        (scanFold_fst (hexEncode bytecode) dangerous_selectors (0, rf))
    · have h1 := hasSeq_hexEncode _ _ hbl
      have h2 : hexEncode [98, 108, 97, 99, 107, 108, 105, 115, 116]
          = "626c61636b6c697374".toList := by decide
      rw [h2] at h1
      exact scanBlacklistCheck_of_pattern _ _
        (by rw [Bool.or_eq_true]; exact Or.inr h1)
        (scanFold_fst (hexEncode bytecode) dangerous_selectors (0, rf))
  · rcases scan_penalty_cases bytecode rf with h | h <;> omega

/-- Witness for C5: bytes containing "bots" get exactly 50, and an
unrelated bytecode stays at most 50. -/
theorem scan_penalty_spec_witness :
    hasSeq [98, 111, 116, 115] [0, 98, 111, 116, 115, 7] = true
    ∧ (scan_access_control_functions [0, 98, 111, 116, 115, 7] []).1 = 50
    ∧ (scan_access_control_functions [1, 2, 3] []).1 ≤ 50 :=
  ⟨by decide,
    (scan_penalty_spec [0, 98, 111, 116, 115, 7] []).1
      (Or.inr (Or.inl (by decide))),
    (scan_penalty_spec [1, 2, 3] []).2⟩

theorem detect_async_reverse_err_eval (cn ns : String)
    (code : Option (List ℕ)) (amt : ℕ) (e : String) (test lat : ℕ)
    (hamt : amt ≠ 0)
    (hins : hasSeq "insufficient".toList (lowerChars e) = false)
    (hemp : hasSeq "empty".toList (lowerChars e) = false) :
    detect_async cn ns code (Except.ok amt) (Except.error e) test lat
      = Except.ok (HoneypotResult.honeypot
          ("Sell returned 0 " ++ ns ++ " - cannot sell tokens")
          true false true (detectScan code).1 (detectScan code).2 lat) := by
  have hins2 : hasSeq ['i', 'n', 's', 'u', 'f', 'f', 'i', 'c', 'i', 'e', 'n',
      't'] (lowerChars e) = false := hins
  have hemp2 : hasSeq ['e', 'm', 'p', 't', 'y'] (lowerChars e) = false := hemp
  simp [detect_async, hamt, hins2, hemp2]

theorem detect_async_reverse_zero_eval (cn ns : String)
    (code : Option (List ℕ)) (amt test lat : ℕ)
    (hamt : amt ≠ 0) (ht0 : test ≠ 0) (ht128 : test < 2 ^ 128) :
    detect_async cn ns code (Except.ok amt) (Except.ok 0) test lat
      = Except.ok (HoneypotResult.honeypot
          ("Extreme loss: " ++ fmtF64 100 ++ "% - likely honeypot")
          true false false (detectScan code).1
          ((detectScan code).2 ++ ["Extreme loss: " ++ fmtF64 100 ++ "%"])
          lat) := by
  have htq : ((test : ℕ) : ℚ) ≠ 0 := Nat.cast_ne_zero.mpr ht0
  have h1 : u128TryFrom test = test := if_pos ht128
  have h2 : u128TryFrom 0 = 0 := by norm_num [u128TryFrom]
  have hl : max ((((test : ℚ) - ((0 : ℕ) : ℚ)) / (test : ℚ)) * 100) 0
      = 100 := by
    push_cast
    rw [sub_zero, div_self htq, one_mul]
    exact max_eq_left (by norm_num)
  simp only [detect_async, h1, h2]
  rw [if_neg hamt, if_neg htq, hl]
  rw [if_pos (by norm_num : (100 : ℚ) > 90)]

/-- C1 counterexample: in quote mode with a nonzero forward quote, (a) a
reverse-quote failure whose message contains neither "insufficient" nor
"empty" yields the "Sell returned 0" honeypot — but with
`sell_reverted = true`, so its PERS score is 100, not 95; and (b) a reverse
quote that succeeds returning 0 native yields the "Extreme loss" honeypot,
whose reason does not begin with "Sell returned 0". -/
theorem quote_sell_fail_counterexample :
    detect_async "Ethereum" "ETH" none (Except.ok (10 ^ 18))
        (Except.error "boom") (10 ^ 17) 0
      = Except.ok (HoneypotResult.honeypot
          "Sell returned 0 ETH - cannot sell tokens" true false true 0 [] 0)
    ∧ strBegins "Sell returned 0 ETH - cannot sell tokens" "Sell returned 0"
      = true
    ∧ calculate_risk_score (HoneypotResult.honeypot
        "Sell returned 0 ETH - cannot sell tokens" true false true 0 [] 0)
      = 100
    ∧ calculate_risk_score (HoneypotResult.honeypot
        "Sell returned 0 ETH - cannot sell tokens" true false true 0 [] 0)
      ≠ 95
    ∧ detect_async "Ethereum" "ETH" none (Except.ok (10 ^ 18))
        (Except.ok 0) (10 ^ 17) 0
      = Except.ok (HoneypotResult.honeypot
          ("Extreme loss: " ++ fmtF64 100 ++ "% - likely honeypot")
          true false false 0 ["Extreme loss: " ++ fmtF64 100 ++ "%"] 0)
    ∧ strBegins ("Extreme loss: " ++ fmtF64 100 ++ "% - likely honeypot")
        "Sell returned 0" = false := by
  refine ⟨rfl, by decide, by decide, by decide, ?_, ?_⟩
  · exact detect_async_reverse_zero_eval "Ethereum" "ETH" none (10 ^ 18)
      (10 ^ 17) 0 (by norm_num) (by norm_num) (by norm_num)
  · decide

/-- C1 amended: with a nonzero forward quote, (a) a reverse-quote failure
whose message contains neither "insufficient" nor "empty" yields a honeypot
result whose reason begins "Sell returned 0" — but carrying
`sell_reverted = true`, so its PERS score is 100 (not 95); (b) a reverse
quote succeeding with 0 native back yields a honeypot whose reason begins
"Extreme loss" (not "Sell returned 0"), with `sell_reverted = false` and
PERS score `min(95 + access_control_penalty, 100)` — 95 exactly when no
access-control penalty applies. -/
theorem quote_sell_fail_amended :
    (∀ (cn ns : String) (code : Option (List ℕ)) (amt : ℕ) (e : String)
        (test lat : ℕ),
      amt ≠ 0 →
      hasSeq "insufficient".toList (lowerChars e) = false →
      hasSeq "empty".toList (lowerChars e) = false →
      ∃ r, detect_async cn ns code (Except.ok amt) (Except.error e) test lat
          = Except.ok r
        ∧ r.is_honeypot = true ∧ r.sell_reverted = true
        ∧ strBegins r.reason "Sell returned 0" = true
        ∧ calculate_risk_score r = 100)
    ∧ (∀ (cn ns : String) (code : Option (List ℕ)) (amt test lat : ℕ),
      amt ≠ 0 → test ≠ 0 → test < 2 ^ 128 →
      ∃ r, detect_async cn ns code (Except.ok amt) (Except.ok 0) test lat
          = Except.ok r
        ∧ r.is_honeypot = true ∧ r.sell_reverted = false
        ∧ strBegins r.reason "Extreme loss" = true
        ∧ calculate_risk_score r
          = min (95 + r.access_control_penalty) 100) := by
  constructor
  · intro cn ns code amt e test lat hamt hins hemp
    refine ⟨_, detect_async_reverse_err_eval cn ns code amt e test lat
      hamt hins hemp, rfl, rfl, ?_, ?_⟩
    · have hx : "Sell returned 0 ".data = "Sell returned 0".data ++ [' '] := by
        decide
      simp [strBegins, String.toList, HoneypotResult.honeypot,
        String.data_append, hx, List.append_assoc]
      exact leadsWith_append _ _
    · simp [calculate_risk_score, HoneypotResult.honeypot,
        (by norm_num : (5 : ℚ) < 100)]
  · intro cn ns code amt test lat hamt ht0 ht128
    refine ⟨_, detect_async_reverse_zero_eval cn ns code amt test lat
      hamt ht0 ht128, rfl, rfl, ?_, ?_⟩
    · have hx : "Extreme loss: ".data = "Extreme loss".data ++ [':', ' '] := by
        decide
      simp [strBegins, String.toList, HoneypotResult.honeypot,
        String.data_append, hx, List.append_assoc]
      exact leadsWith_append _ _
    · simp [calculate_risk_score, HoneypotResult.honeypot,
        (by norm_num : (5 : ℚ) < 100)]

/-- Witness for the amended C1 at a concrete input: forward quote 10^18
tokens, reverse quote failing with "boom", test amount 0.1 native. -/
theorem quote_sell_fail_witness :
    (10 : ℕ) ^ 18 ≠ 0
    ∧ hasSeq "insufficient".toList (lowerChars "boom") = false
    ∧ hasSeq "empty".toList (lowerChars "boom") = false
    ∧ ∃ r, detect_async "Ethereum" "ETH" none (Except.ok (10 ^ 18))
          (Except.error "boom") (10 ^ 17) 0 = Except.ok r
        ∧ r.is_honeypot = true ∧ r.sell_reverted = true
        ∧ strBegins r.reason "Sell returned 0" = true
        ∧ calculate_risk_score r = 100 :=
  ⟨by norm_num, by decide, by decide,
    quote_sell_fail_amended.1 "Ethereum" "ETH" none (10 ^ 18) "boom"
      (10 ^ 17) 0 (by norm_num) (by decide) (by decide)⟩

theorem detect_sell_success_eval (code : Option (List ℕ))
    (b1 b2 payload : List ℕ) (test lat : ℕ)
    (hp64 : 64 ≤ payload.length) (heth : 1000 ≤ lastWord payload)
    (ht0 : test ≠ 0) (ht128 : test < 2 ^ 128)
    (hl128 : lastWord payload < 2 ^ 128)
    (hloss : ¬ ((((test : ℚ) - (lastWord payload : ℚ)) / (test : ℚ)) * 100
      > 50)) :
    detect code (ExecOutcome.Success b1) (ExecOutcome.Success b2)
        (ExecOutcome.Success payload) test lat
      = Except.ok (HoneypotResult.safe
          (((((test : ℚ) - (lastWord payload : ℚ)) / (test : ℚ)) * 100) / 2)
          (((((test : ℚ) - (lastWord payload : ℚ)) / (test : ℚ)) * 100) / 2)
          (scan_access_control_functions (code.getD mock_erc20_bytecode) []).1
          (scan_access_control_functions (code.getD mock_erc20_bytecode) []).2
          lat) := by
  have htq : ((test : ℕ) : ℚ) ≠ 0 := Nat.cast_ne_zero.mpr ht0
  have h1 : u128TryFrom test = test := if_pos ht128
  have h2 : u128TryFrom (lastWord payload) = lastWord payload := if_pos hl128
  simp only [detect, simulate_buy, simulate_approve,
    simulate_sell_with_revert_detection, execute_tx, Except.map,
    if_pos hp64, if_neg (not_lt.mpr heth), h1, h2]
  rw [if_neg htq, if_neg hloss]

/-- C3 counterexample: in full-simulation mode the loss is computed without
the max(0,·) clamp. When the simulated sell returns 2000 wei against a test
amount of 1000 wei, `detect` returns a safe result whose
`total_loss_percent` is −100, which is negative — refuting "never negative
for any returned HoneypotResult". -/
theorem sim_loss_negative_counterexample :
    detect none (ExecOutcome.Success []) (ExecOutcome.Success [])
        (ExecOutcome.Success (List.replicate 62 0 ++ [7, 208])) 1000 0
      = Except.ok (HoneypotResult.safe (-50) (-50) 0 [] 0)
    ∧ (HoneypotResult.safe (-50) (-50) 0 [] 0).total_loss_percent < 0 := by
  have hlw : lastWord (List.replicate 62 0 ++ [7, 208]) = 2000 := by decide
  have hscan : scan_access_control_functions
      (Option.getD none mock_erc20_bytecode) [] = (0, []) := by decide
  constructor
  · rw [detect_sell_success_eval none [] [] _ 1000 0 (by decide)
      (by rw [hlw]; norm_num) (by norm_num) (by norm_num)
      (by rw [hlw]; norm_num) (by rw [hlw]; push_cast; norm_num)]
    rw [hlw, hscan]
    simp only [HoneypotResult.safe, Except.ok.injEq, HoneypotResult.mk.injEq]
    norm_num
  · simp only [HoneypotResult.safe]
    norm_num

/-- C3 amended: in quote mode the reported `total_loss_percent` is the
clamped `max(0, (in − out)/in · 100)` and is never negative for any
returned result; full-simulation mode computes the loss without the clamp
and can return a negative value (see the counterexample). -/
theorem quote_mode_loss_nonneg (cn ns : String) (code : Option (List ℕ))
    (fq rq : Except String ℕ) (test lat : ℕ) (r : HoneypotResult)
    (h : detect_async cn ns code fq rq test lat = Except.ok r) :
    0 ≤ r.total_loss_percent := by
  simp only [detect_async] at h
  split at h
  · split at h
    · injection h with h2
      subst h2
      norm_num
    · split at h
      · split at h
        · injection h with h2
          subst h2
          simp only [HoneypotResult.honeypot]
          norm_num
        · split at h
          · injection h with h2
            subst h2
            simp only [HoneypotResult.honeypot]
            norm_num
          · injection h with h2
            subst h2
            simp only [HoneypotResult.safe]
            rw [add_halves]
            exact le_max_right _ _
      · split at h
        · injection h with h2
          subst h2
          norm_num
        · injection h with h2
          subst h2
          simp only [HoneypotResult.honeypot]
          norm_num
  · injection h with h2
    subst h2
    norm_num

/-- Witness for the amended C3: the quote-mode no-liquidity result at a
concrete input has nonnegative loss. -/
theorem quote_mode_loss_nonneg_witness :
    0 ≤ ({ is_honeypot := false
           reason := "No liquidity pool found on Ethereum DEX. Token may trade on other DEXes."
           buy_success := false
           sell_success := false
           sell_reverted := false
           buy_tax_percent := 0
           sell_tax_percent := 0
           total_loss_percent := 0
           access_control_penalty := 0
           risk_factors := ["No liquidity on checked DEX"]
           latency_ms := 0 } : HoneypotResult).total_loss_percent :=
  quote_mode_loss_nonneg "Ethereum" "ETH" none (Except.ok 0) (Except.ok 0)
    1 0 _ rfl

theorem go_all_fail {T : Type} (j : ℕ → ℤ) (a : ℕ → Except String T)
    (e : ℕ → String) :
    ∀ (fuel idx : ℕ) (last : Option String) (sleeps : List ℤ),
      (∀ n, idx ≤ n → n < idx + fuel → a n = Except.error (e n)) → 0 < fuel →
      (callWithRetryGo j a fuel idx last sleeps).1
          = Except.error (e (idx + fuel - 1))
        ∧ (callWithRetryGo j a fuel idx last sleeps).2.1 = idx + fuel := by
  intro fuel
  induction fuel with
  | zero =>
    intro idx last sleeps _ h0
    exact absurd h0 (lt_irrefl 0)
  | succ n ih =>
    intro idx last sleeps hfail _
    have ha := hfail idx (le_refl _) (by omega)
    by_cases hn : n = 0
    · subst hn
      simp [callWithRetryGo, ha]
    · have hrec := ih (idx + 1) (some (e idx))
        (if idx = 0 then sleeps else sleeps ++ [final_delay idx (j idx)])
        (fun n2 hge hlt => hfail n2 (by omega) (by omega)) (by omega)
      simp only [callWithRetryGo, ha]
      have hidx : idx + 1 + n - 1 = idx + (n + 1) - 1 := by omega
      have hidx2 : idx + 1 + n = idx + (n + 1) := by omega
      rw [hidx, hidx2] at hrec
      exact hrec

/-- C6 counterexample: the retry loop does not surface non-retryable
JSON-RPC errors immediately. With every attempt failing as "method not
found" (code −32601, classified non-retryable by
`RpcError::is_method_not_found`), `call_with_retry` still executes all 7
attempts instead of stopping after 1. -/
theorem rpc_retry_nonretryable_counterexample :
    RpcError.is_method_not_found ⟨-32601, "Method not found"⟩ = true
    ∧ (call_with_retry (fun _ => 0) (fun _ =>
        execute_call (T := ℕ) (Except.ok
          ⟨200, BodyOutcome.rpcFailure ⟨-32601, "Method not found"⟩⟩))).2.1
      = 7
    ∧ ¬ ((call_with_retry (fun _ => 0) (fun _ =>
        execute_call (T := ℕ) (Except.ok
          ⟨200, BodyOutcome.rpcFailure ⟨-32601, "Method not found"⟩⟩))).2.1
      = 1) := by
  refine ⟨by decide, by decide, by decide⟩

/-- C6 amended: the retry loop makes at most 7 attempts and retries after
every failed attempt regardless of the error's kind — including the
non-retryable JSON-RPC errors (invalid request −32600, method not found
−32601, parse error −32700) — surfacing only the last error once all 7
attempts are exhausted. The `RpcError` retryability classifiers exist but
`call_with_retry` never consults them (its 429 / rate-limit check only
logs). -/
theorem rpc_retry_always_retries {T : Type} (jitters : ℕ → ℤ)
    (attempts : ℕ → Except String T) (e : ℕ → String)
    (h : ∀ n, n < 7 → attempts n = Except.error (e n)) :
    (call_with_retry jitters attempts).1 = Except.error (e 6)
    ∧ (call_with_retry jitters attempts).2.1 = 7 := by
  have hgo := go_all_fail jitters attempts e 7 0 none []
    (fun n _ hlt => h n (by omega)) (by norm_num)
  simpa [call_with_retry, ALCHEMY_MAX_RETRIES] using hgo

/-- Witness for the amended C6 at a concrete failing-attempt sequence. -/
theorem rpc_retry_always_retries_witness :
    (call_with_retry (fun _ => 0)
        (fun n => (Except.error (toString n) : Except String ℕ))).1
      = Except.error "6"
    ∧ (call_with_retry (fun _ => 0)
        (fun n => (Except.error (toString n) : Except String ℕ))).2.1 = 7 :=
  rpc_retry_always_retries (fun _ => 0)
    (fun n => (Except.error (toString n) : Except String ℕ))
    (fun n => toString n) (fun _ _ => rfl)

/-- An EVM outcome that executed to completion successfully. -/
def ExecOutcome.isSuccess : ExecOutcome → Bool
  | .Success _ => true
  | _ => false

/-- An EVM outcome that reverted or halted (the source treats a halt as a
revert with a "Halted: " reason). -/
def ExecOutcome.isRevertOrHalt : ExecOutcome → Bool
  | .Revert _ => true
  | .Halt _ => true
  | _ => false

/-- Any string occurs inside the concatenation around it. -/
theorem strHas_middle (a b c : String) : strHas (a ++ b ++ c) b = true := by
  simp only [strHas, String.toList, String.data_append, List.append_assoc]
  exact hasSeq_parts _ _ _

/-- C7: the full-simulation detector never turns a simulation revert into an
error. For every combination of EVM outcomes it returns `Ok` with a
structured result; whenever the buy, approve or sell transaction reverted
or halted the result has `is_honeypot = true`; and a sell revert (or halt)
specifically yields `sell_reverted = true` with the decoded reason inside
`reason`. -/
theorem detect_total_on_reverts (code : Option (List ℕ))
    (buyOut apprOut sellOut : ExecOutcome) (test lat : ℕ) :
    ∃ r, detect code buyOut apprOut sellOut test lat = Except.ok r
      ∧ ((buyOut.isRevertOrHalt = true
          ∨ (buyOut.isSuccess = true ∧ apprOut.isRevertOrHalt = true)
          ∨ (buyOut.isSuccess = true ∧ apprOut.isSuccess = true
              ∧ sellOut.isRevertOrHalt = true)) → r.is_honeypot = true)
      ∧ (∀ out, buyOut.isSuccess = true → apprOut.isSuccess = true →
          sellOut = ExecOutcome.Revert out →
          r.sell_reverted = true ∧ r.is_honeypot = true
            ∧ strHas r.reason (decode_revert_reason out) = true)
      ∧ (∀ hr, buyOut.isSuccess = true → apprOut.isSuccess = true →
          sellOut = ExecOutcome.Halt hr →
          r.sell_reverted = true ∧ r.is_honeypot = true
            ∧ strHas r.reason ("Halted: " ++ hr) = true) := by
  cases buyOut with
  | Revert o =>
    refine ⟨_, rfl, fun _ => rfl, ?_, ?_⟩
    · intro out hb _ _
      simp [ExecOutcome.isSuccess] at hb
    · intro hr hb _ _
      simp [ExecOutcome.isSuccess] at hb
  | Halt h0 =>
    refine ⟨_, rfl, fun _ => rfl, ?_, ?_⟩
    · intro out hb _ _
      simp [ExecOutcome.isSuccess] at hb
    · intro hr hb _ _
      simp [ExecOutcome.isSuccess] at hb
  | EvmError m =>
    refine ⟨_, rfl, fun _ => rfl, ?_, ?_⟩
    · intro out hb _ _
      simp [ExecOutcome.isSuccess] at hb
    · intro hr hb _ _
      simp [ExecOutcome.isSuccess] at hb
  | Success b1 =>
    cases apprOut with
    | Revert o =>
      refine ⟨_, rfl, fun _ => rfl, ?_, ?_⟩
      · intro out _ ha _
        simp [ExecOutcome.isSuccess] at ha
      · intro hr _ ha _
        simp [ExecOutcome.isSuccess] at ha
    | Halt h0 =>
      refine ⟨_, rfl, fun _ => rfl, ?_, ?_⟩
      · intro out _ ha _
        simp [ExecOutcome.isSuccess] at ha
      · intro hr _ ha _
        simp [ExecOutcome.isSuccess] at ha
    | EvmError m =>
      refine ⟨_, rfl, fun _ => rfl, ?_, ?_⟩
      · intro out _ ha _
        simp [ExecOutcome.isSuccess] at ha
      · intro hr _ ha _
        simp [ExecOutcome.isSuccess] at ha
    | Success b2 =>
      cases sellOut with
      | Revert out0 =>
        refine ⟨_, rfl, fun _ => rfl, ?_, ?_⟩
        · intro out _ _ heq
          obtain rfl : out0 = out := by
            injection heq
          exact ⟨rfl, rfl, strHas_middle _ _ _⟩
        · intro hr _ _ heq
          exact ExecOutcome.noConfusion heq
      | Halt hr0 =>
        refine ⟨_, rfl, fun _ => rfl, ?_, ?_⟩
        · intro out _ _ heq
          exact ExecOutcome.noConfusion heq
        · intro hr _ _ heq
          obtain rfl : hr0 = hr := by
            injection heq
          exact ⟨rfl, rfl, strHas_middle _ _ _⟩
      | EvmError m =>
        refine ⟨_, rfl, fun _ => rfl, ?_, ?_⟩
        · intro out _ _ heq
          exact ExecOutcome.noConfusion heq
        · intro hr _ _ heq
          exact ExecOutcome.noConfusion heq
      | Success payload =>
        simp only [detect, simulate_buy, simulate_approve,
          simulate_sell_with_revert_detection, execute_tx, Except.map]
        repeat' split
        all_goals refine ⟨_, rfl, ?_, ?_, ?_⟩
        all_goals
          first
          | (intro out hb ha heq
             exact ExecOutcome.noConfusion heq)
          | (intro hyp
             rfl)
          | (rintro (hb | ⟨_, hb⟩ | ⟨_, _, hb⟩) <;>
              simp [ExecOutcome.isRevertOrHalt] at hb)

/-- Witness for C7 at a concrete revert: buy and approve succeed, the sell
reverts with raw output bytes `[1, 2, 3]`. -/
theorem detect_total_on_reverts_witness :
    ∃ r, detect none (ExecOutcome.Success []) (ExecOutcome.Success [])
        (ExecOutcome.Revert [1, 2, 3]) 1000 0 = Except.ok r
      ∧ r.is_honeypot = true ∧ r.sell_reverted = true
      ∧ strHas r.reason (decode_revert_reason [1, 2, 3]) = true := by
  obtain ⟨r, hok, _, h2, _⟩ := detect_total_on_reverts none
    (ExecOutcome.Success []) (ExecOutcome.Success [])
    (ExecOutcome.Revert [1, 2, 3]) 1000 0
  obtain ⟨hsr, hhp, hhas⟩ := h2 [1, 2, 3] rfl rfl rfl
  exact ⟨r, hok, hhp, hsr, hhas⟩

/-- C8: after `set(k, r)` at instant `t` on a cache with the default
300-second TTL, a `get(k2)` at instant `t2` for any `k2` equal to `k`
case-insensitively returns `some r` while the elapsed time is at most the
TTL; once the elapsed time exceeds the TTL the `get` returns `none` and
removes the entry; and case-insensitively equal keys normalize to the same
stored key. -/
theorem cache_set_get_ttl (c : HoneypotCache) (hc : c.ttl_secs = 300)
    (k k2 : String) (hk : lowerStr k = lowerStr k2) (r : HoneypotResult)
    (t t2 : ℚ) :
    normalize_address k = normalize_address k2
    ∧ (t2 - t ≤ 300 → ((c.set t k r).get t2 k2).1 = some r)
    ∧ (300 < t2 - t →
        ((c.set t k r).get t2 k2).1 = none
        ∧ (((c.set t k r).get t2 k2).2).store (normalize_address k2)
          = none) := by
  have hnorm : normalize_address k = normalize_address k2 := hk
  have hs : (c.set t k r).store (normalize_address k2)
      = some { result := r, created_at := t, ttl_secs := c.ttl_secs } := by
    simp [HoneypotCache.set, ← hnorm]
  refine ⟨hnorm, ?_, ?_⟩
  · intro hle
    have hexp : CacheEntry.is_expired t2
        { result := r, created_at := t, ttl_secs := c.ttl_secs } = false := by
      simp [CacheEntry.is_expired, hc]
      linarith
    simp [HoneypotCache.get, hs, hexp]
  · intro hlt
    have hexp : CacheEntry.is_expired t2
        { result := r, created_at := t, ttl_secs := c.ttl_secs } = true := by
      simp [CacheEntry.is_expired, hc]
      linarith
    constructor
    · simp [HoneypotCache.get, hs, hexp]
    · simp [HoneypotCache.get, hs, hexp]

/-- Witness for C8: set under an uppercase key, get under the lowercase
key, at elapsed times 300 (hit) and 301 (expired). -/
theorem cache_set_get_ttl_witness :
    ((HoneypotCache.new.set 0 "0xAB" (HoneypotResult.safe 1 1 0 [] 100)).get
        300 "0xab").1 = some (HoneypotResult.safe 1 1 0 [] 100)
    ∧ ((HoneypotCache.new.set 0 "0xAB" (HoneypotResult.safe 1 1 0 [] 100)).get
        301 "0xab").1 = none :=
  ⟨(cache_set_get_ttl HoneypotCache.new rfl "0xAB" "0xab" (by decide)
      (HoneypotResult.safe 1 1 0 [] 100) 0 300).2.1 (by norm_num),
    ((cache_set_get_ttl HoneypotCache.new rfl "0xAB" "0xab" (by decide)
      (HoneypotResult.safe 1 1 0 [] 100) 0 301).2.2 (by norm_num)).1⟩

theorem sortPairs_perm (raw : List DexPair) :
    (sortPairsByLiquidity raw).Perm raw :=
  List.mergeSort_perm raw _

theorem sortPairs_pairwise (raw : List DexPair) :
    List.Pairwise (fun a b => DexPair.liqKey b ≤ DexPair.liqKey a)
      (sortPairsByLiquidity raw) := by
  have htrans : ∀ a b c : DexPair,
      decide (DexPair.liqKey b ≤ DexPair.liqKey a) = true →
      decide (DexPair.liqKey c ≤ DexPair.liqKey b) = true →
      decide (DexPair.liqKey c ≤ DexPair.liqKey a) = true := by
    intro a b c hab hbc
    simp only [decide_eq_true_eq] at hab hbc ⊢
    exact le_trans hbc hab
  have htot : ∀ a b : DexPair,
      (decide (DexPair.liqKey b ≤ DexPair.liqKey a)
        || decide (DexPair.liqKey a ≤ DexPair.liqKey b)) = true := by
    intro a b
    rcases le_total (DexPair.liqKey b) (DexPair.liqKey a) with h | h
    · simp [h]
    · simp [h]
  have hpw0 := List.sorted_mergeSort htrans htot raw
  exact hpw0.imp (fun h => by simpa using h)

/-- C9: for every nonempty pair list, `auto_detect_token` succeeds; the
chosen best pair is a pair of the input; when at least one V2-compatible
pair exists, the best pair is V2-compatible and carries the greatest
liquidity key among V2-compatible pairs; when none exists, the best pair
carries the greatest liquidity key overall; and `has_v2_liquidity` holds
exactly when a V2-compatible pair exists. -/
theorem auto_detect_route_selection (raw : List DexPair) (hne : raw ≠ []) :
    ∃ t bp, auto_detect_token raw = Except.ok t ∧ bp ∈ raw
      ∧ t.best_dex = bp.to_discovered_dex
      ∧ (t.has_v2_liquidity = true ↔ ∃ p ∈ raw, p.is_v2_compatible = true)
      ∧ ((∃ p ∈ raw, p.is_v2_compatible = true) →
          bp.is_v2_compatible = true
          ∧ ∀ p ∈ raw, p.is_v2_compatible = true →
              DexPair.liqKey p ≤ DexPair.liqKey bp)
      ∧ ((¬ ∃ p ∈ raw, p.is_v2_compatible = true) →
          ∀ p ∈ raw, DexPair.liqKey p ≤ DexPair.liqKey bp) := by
  have hperm : (sortPairsByLiquidity raw).Perm raw := sortPairs_perm raw
  have hpw := sortPairs_pairwise raw
  cases hcase : sortPairsByLiquidity raw with
  | nil =>
    rw [hcase] at hperm
    exact absurd (List.Perm.eq_nil hperm.symm) hne
  | cons p0 rest =>
    rw [hcase] at hperm hpw
    have hmem : ∀ p : DexPair, p ∈ raw ↔ p ∈ p0 :: rest := fun p =>
      (hperm.mem_iff).symm
    cases hv2 : (p0 :: rest).filter (fun p => p.is_v2_compatible) with
    | nil =>
      have hnov2 : ¬ ∃ p ∈ raw, p.is_v2_compatible = true := by
        rintro ⟨p, hpraw, hpv2⟩
        have hpf : p ∈ (p0 :: rest).filter (fun p => p.is_v2_compatible) :=
          List.mem_filter.mpr ⟨(hmem p).mp hpraw, hpv2⟩
        rw [hv2] at hpf
        exact absurd hpf (List.not_mem_nil p)
      obtain ⟨t, ht, htb, hth⟩ : ∃ t, auto_detect_token raw = Except.ok t
          ∧ t.best_dex = p0.to_discovered_dex
          ∧ t.has_v2_liquidity = false := by
        simp only [auto_detect_token, hcase, hv2]
        exact ⟨_, rfl, rfl, by simp⟩
      refine ⟨t, p0, ht, (hmem p0).mpr (List.mem_cons_self p0 rest), htb,
        ?_, ?_, ?_⟩
      · exact iff_of_false (by simp [hth]) hnov2
      · exact fun h => absurd h hnov2
      · intro _ p hpraw
        rcases List.mem_cons.mp ((hmem p).mp hpraw) with rfl | hpin
        · exact le_refl _
        · exact List.rel_of_pairwise_cons hpw hpin
    | cons q qs =>
      have hqf : q ∈ (p0 :: rest).filter (fun p => p.is_v2_compatible) := by
        rw [hv2]
        exact List.mem_cons_self q qs
      obtain ⟨hqsorted, hqv2⟩ := List.mem_filter.mp hqf
      have hqraw : q ∈ raw := (hmem q).mpr hqsorted
      have hpwf := hpw.filter (fun p => p.is_v2_compatible)
      rw [hv2] at hpwf
      obtain ⟨t, ht, htb, hth⟩ : ∃ t, auto_detect_token raw = Except.ok t
          ∧ t.best_dex = q.to_discovered_dex
          ∧ t.has_v2_liquidity = true := by
        simp only [auto_detect_token, hcase, hv2]
        exact ⟨_, rfl, rfl, by simp⟩
      refine ⟨t, q, ht, hqraw, htb, ?_, ?_, ?_⟩
      · exact iff_of_true hth ⟨q, hqraw, hqv2⟩
      · intro _
        refine ⟨hqv2, ?_⟩
        intro p hpraw hpv2
        have hpf : p ∈ (p0 :: rest).filter (fun p => p.is_v2_compatible) :=
          List.mem_filter.mpr ⟨(hmem p).mp hpraw, hpv2⟩
        rw [hv2] at hpf
        rcases List.mem_cons.mp hpf with rfl | hpin
        · exact le_refl _
        · exact List.rel_of_pairwise_cons hpwf hpin
      · intro hno
        exact absurd ⟨q, hqraw, hqv2⟩ hno

/-- A concrete V2-compatible sample pair used for instantiating the route
selection facts. -/
def sampleV2Pair : DexPair where
  chain_id := "ethereum"
  dex_id := "uniswap"
  pair_address := "0xB"
  labels := []
  base_token := { address := "0xT", name := none, symbol := none }
  quote_token := { address := "0xW", name := none, symbol := none }
  liquidity := some { usd := some 500, base := none, quote := none }
  price_usd := none
  volume := none

/-- Witness for C9: the selection facts instantiated on a concrete
one-pair list. -/
theorem auto_detect_route_selection_witness :
    ([sampleV2Pair] : List DexPair) ≠ []
    ∧ ∃ t bp, auto_detect_token [sampleV2Pair] = Except.ok t
      ∧ bp ∈ [sampleV2Pair]
      ∧ t.best_dex = bp.to_discovered_dex
      ∧ t.has_v2_liquidity = true := by
  refine ⟨by simp, ?_⟩
  obtain ⟨t, bp, h1, h2, h3, h4, _, _⟩ :=
    auto_detect_route_selection [sampleV2Pair] (by simp)
  refine ⟨t, bp, h1, h2, h3, ?_⟩
  refine h4.mpr ⟨sampleV2Pair, List.mem_cons_self _ _, ?_⟩
  decide

theorem go_idx_le {T : Type} (j : ℕ → ℤ) (a : ℕ → Except String T) :
    ∀ (fuel idx : ℕ) (last : Option String) (sleeps : List ℤ),
      (callWithRetryGo j a fuel idx last sleeps).2.1 ≤ idx + fuel := by
  intro fuel
  induction fuel with
  | zero =>
    intro idx last sleeps
    simp [callWithRetryGo]
  | succ n ih =>
    intro idx last sleeps
    simp only [callWithRetryGo]
    cases ha : a idx with
    | ok t =>
      simp [ha]
    | error e =>
      simp only [ha]
      have h := ih (idx + 1) (some e)
        (if idx = 0 then sleeps else sleeps ++ [final_delay idx (j idx)])
      omega

theorem go_sleeps {T : Type} (j : ℕ → ℤ) (a : ℕ → Except String T) :
    ∀ (fuel idx : ℕ) (last : Option String) (sleeps : List ℤ), 1 ≤ idx →
      ∃ m, m ≤ fuel ∧ (callWithRetryGo j a fuel idx last sleeps).2.2
        = sleeps ++ (List.range' idx m).map (fun k => final_delay k (j k)) := by
  intro fuel
  induction fuel with
  | zero =>
    intro idx last sleeps _
    exact ⟨0, le_refl 0, by simp [callWithRetryGo]⟩
  | succ n ih =>
    intro idx last sleeps hidx
    have hne : ¬ idx = 0 := by omega
    simp only [callWithRetryGo, if_neg hne]
    cases ha : a idx with
    | ok t =>
      refine ⟨1, by omega, ?_⟩
      simp [ha, List.range']
    | error e =>
      obtain ⟨m, hm, heq⟩ := ih (idx + 1) (some e)
        (sleeps ++ [final_delay idx (j idx)]) (by omega)
      refine ⟨m + 1, by omega, ?_⟩
      simp only [ha, heq, List.range'_succ]
      simp [List.append_assoc]

theorem final_delay_bounds (k : ℕ) (jv : ℤ) (h1 : 1 ≤ k) (h6 : k ≤ 6)
    (hlo : -(jitter_range k : ℤ) ≤ jv) (hhi : jv ≤ (jitter_range k : ℤ)) :
    4 * min (1000 * 2 ^ (k - 1)) 64000 ≤ 5 * final_delay k jv
    ∧ 5 * final_delay k jv ≤ 6 * min (1000 * 2 ^ (k - 1)) 64000 := by
  interval_cases k <;>
    norm_num [final_delay, capped_delay, base_delay, jitter_range,
      ALCHEMY_BASE_RETRY_MS, ALCHEMY_MAX_RETRY_MS, RETRY_JITTER_PERCENT]
        at hlo hhi ⊢ <;>
    omega

theorem go_step_zero {T : Type} (j : ℕ → ℤ) (a : ℕ → Except String T)
    (n : ℕ) (last : Option String) (sleeps : List ℤ) :
    callWithRetryGo j a (n + 1) 0 last sleeps
      = match a 0 with
        | .ok t => (.ok t, 1, sleeps)
        | .error e => callWithRetryGo j a n 1 (some e) sleeps := by
  cases ha : a 0 <;> simp [callWithRetryGo, ha]

/-- C10: the retry loop executes at most 7 attempts; at most 6 backoff
sleeps are performed, and the i-th sleep (0-based, performed before overall
attempt k = i + 2) lies within ±20 percent of
`d = min(1000 · 2^(k−2), 64000) = min(1000 · 2^i, 64000)` milliseconds —
stated integrally as `4·d ≤ 5·sleep ≤ 6·d` — whenever the drawn jitters lie
in the `±jitter_range` interval the source samples from (the additional
100 ms floor never binds because `0.8·d ≥ 800`). -/
theorem rpc_retry_bounds {T : Type} (jitters : ℕ → ℤ)
    (attempts : ℕ → Except String T)
    (hj : ∀ k, 1 ≤ k → k ≤ 6 →
      -(jitter_range k : ℤ) ≤ jitters k
        ∧ jitters k ≤ (jitter_range k : ℤ)) :
    (call_with_retry jitters attempts).2.1 ≤ 7
    ∧ (call_with_retry jitters attempts).2.2.length ≤ 6
    ∧ ∀ i, i < (call_with_retry jitters attempts).2.2.length →
        4 * min (1000 * 2 ^ i) 64000
          ≤ 5 * ((call_with_retry jitters attempts).2.2.getD i 0)
        ∧ 5 * ((call_with_retry jitters attempts).2.2.getD i 0)
          ≤ 6 * min (1000 * 2 ^ i) 64000 := by
  have hcount : (call_with_retry jitters attempts).2.1 ≤ 7 := by
    have h := go_idx_le jitters attempts 7 0 none []
    simpa [call_with_retry, ALCHEMY_MAX_RETRIES] using h
  have hsl : ∃ m, m ≤ 6 ∧ (call_with_retry jitters attempts).2.2
      = (List.range' 1 m).map (fun k => final_delay k (jitters k)) := by
    have hdef : call_with_retry jitters attempts
        = callWithRetryGo jitters attempts (6 + 1) 0 none [] := rfl
    rw [hdef, go_step_zero]
    cases ha : attempts 0 with
    | ok t => exact ⟨0, by omega, by simp [ha]⟩
    | error e =>
      obtain ⟨m, hm, heq⟩ := go_sleeps jitters attempts 6 1 (some e) []
        (le_refl 1)
      exact ⟨m, hm, by simp [ha, heq]⟩
  obtain ⟨m, hm6, hS⟩ := hsl
  refine ⟨hcount, ?_, ?_⟩
  · rw [hS]
    simpa using hm6
  · intro i hi
    rw [hS] at hi ⊢
    have hlen : i < m := by simpa using hi
    have hi2 : i < ((List.range' 1 m).map
        (fun k => final_delay k (jitters k))).length := by simpa using hlen
    have hget : ((List.range' 1 m).map
        (fun k => final_delay k (jitters k))).getD i 0
        = final_delay (1 + i) (jitters (1 + i)) := by
      rw [List.getD_eq_getElem?_getD, List.getElem?_eq_getElem hi2]
      simp [List.getElem_range']
    rw [hget]
    obtain ⟨hlo, hhi⟩ := hj (1 + i) (by omega) (by omega)
    have hb := final_delay_bounds (1 + i) (jitters (1 + i)) (by omega)
      (by omega) hlo hhi
    simpa using hb

/-- Witness for C10 at concrete jitters (+100 ms each) and attempts that
always fail. -/
theorem rpc_retry_bounds_witness :
    (∀ k, 1 ≤ k → k ≤ 6 →
      -(jitter_range k : ℤ) ≤ (100 : ℤ)
        ∧ (100 : ℤ) ≤ (jitter_range k : ℤ))
    ∧ (call_with_retry (fun _ => (100 : ℤ))
        (fun n => (Except.error (toString n) : Except String ℕ))).2.1 ≤ 7
    ∧ ∀ i, i < (call_with_retry (fun _ => (100 : ℤ))
        (fun n => (Except.error (toString n) : Except String ℕ))).2.2.length →
        4 * min (1000 * 2 ^ i) 64000
          ≤ 5 * ((call_with_retry (fun _ => (100 : ℤ))
              (fun n => (Except.error (toString n)
                : Except String ℕ))).2.2.getD i 0)
        ∧ 5 * ((call_with_retry (fun _ => (100 : ℤ))
              (fun n => (Except.error (toString n)
                : Except String ℕ))).2.2.getD i 0)
          ≤ 6 * min (1000 * 2 ^ i) 64000 := by
  have hj : ∀ k, 1 ≤ k → k ≤ 6 →
      -(jitter_range k : ℤ) ≤ (100 : ℤ)
        ∧ (100 : ℤ) ≤ (jitter_range k : ℤ) := by
    intro k hk1 hk6
    interval_cases k <;> exact ⟨by decide, by decide⟩
  have h := rpc_retry_bounds (fun _ => (100 : ℤ))
    (fun n => (Except.error (toString n) : Except String ℕ)) hj
  exact ⟨hj, h.1, h.2.2⟩
